import Mathlib

/-!
Verification of the `nix-mcp` server (`src/nix_mcp/server.py`).

The Python module has two pieces of behaviour worth verifying:

* `run_nix_command(args, log_prefix, ...)` — runs a subprocess with a
  300-second timeout, writes one log transcript, and returns a tri-tuple
  `(success, stdout, log_file_path)`;
* `call_tool(name, arguments)` — dispatches the five named tools
  (`nix_build`, `nix_eval`, `nix_flake_show`, `nix_flake_check`,
  `nix_search`), builds the command line, delegates to the runner, and
  shapes the JSON response.

Shallow embedding conventions:

* Python strings are `List Char`; `str.strip()`, `str.split("\n")`,
  `" ".join(...)` and `str.startswith(...)` are implemented below
  (`pyStrip`, `pySplit`, `joinSpace`, `List.isPrefixOf`).
* The behaviour of the one subprocess a call may run is an explicit
  `SubprocessOutcome` argument (normal completion with exit code and
  captured streams, `subprocess.TimeoutExpired`, or any other launch
  exception).
* `datetime.now().strftime("%Y%m%d-%H%M%S-%f")` is an opaque `timestamp`
  argument.
* The standard-library `json.loads` is an abstract argument
  `jp : List Char → Option PyJson` (`none` models `json.JSONDecodeError`);
  `len(...)` on a decoded value is `pyLen`, which is `none` exactly on the
  values for which Python's `len` raises `TypeError`.
* A `dict` with conditionally-added keys becomes a structure with
  `Option` fields; raising an uncaught exception becomes `Except.error`.
-/

namespace NixMCP

/-- Characters stripped by Python's `str.strip()` (the ASCII whitespace set). -/
def pyIsSpace (c : Char) : Bool :=
  c == ' ' || c == '\t' || c == '\n' || c == '\r' || c == '\x0b' || c == '\x0c'

/-- Python `s.strip()`: drop whitespace from the left, then from the right. -/
def pyStrip (s : List Char) : List Char :=
  (List.dropWhile pyIsSpace ((List.dropWhile pyIsSpace s).reverse)).reverse

/-- Python `s.split(sep)` for a one-character separator: split at every
occurrence, keeping empty pieces; `"".split(sep) == [""]`. -/
def pySplit (sep : Char) : List Char → List (List Char)
  | [] => [[]]
  | c :: cs =>
    if c = sep then [] :: pySplit sep cs
    else
      match pySplit sep cs with
      | [] => [[c]]
      | l :: ls => (c :: l) :: ls

/-- Python `xs[-1]` on a list of lines (total; `pySplit` never returns `[]`). -/
def lastElem : List (List Char) → List Char
  | [] => []
  | [l] => l
  | _ :: l :: ls => lastElem (l :: ls)

/-- Convenience: the character list of a string literal. -/
def chars (s : String) : List Char := s.toList

/-- Python `" ".join(args)`. -/
def joinSpace : List (List Char) → List Char
  | [] => []
  | [a] => a
  | a :: b :: rest => a ++ ' ' :: joinSpace (b :: rest)

/-- The first line of a text: everything before the first newline. -/
def firstLine (t : List Char) : List Char := t.takeWhile (fun c => c != '\n')

/-- The store-path marker tested by `store_path.startswith("/nix/store/")`. -/
def nixStoreMarker : List Char := chars "/nix/store/"

/-- The `timeout=300` argument of `subprocess.run` (seconds). -/
def timeoutSeconds : Nat := 300

/-- What the one subprocess of a call does: normal completion with an exit
code and captured stdout/stderr, `subprocess.TimeoutExpired`, or any other
exception while launching/running (message of the exception). -/
inductive SubprocessOutcome where
  | completed (returncode : Int) (stdout stderr : List Char)
  | timedOut
  | launchFailure (errMsg : List Char)

/-- The one log transcript written by `run_nix_command`. -/
structure LogRecord where
  path : List Char
  content : List Char
deriving Repr

/-- The tri-tuple returned by `run_nix_command`, together with the log
transcript it wrote (exactly one per call). -/
structure RunResult where
  success : Bool
  stdout : List Char
  log_file : List Char
  log : LogRecord
deriving Repr

/-- `f"/tmp/nix-mcp-{log_prefix}-{timestamp}.log"`. -/
def logPath (logPre timestamp : List Char) : List Char :=
  chars "/tmp/nix-mcp-" ++ logPre ++ '-' :: timestamp ++ chars ".log"

/-- `run_nix_command(args, log_prefix)` from `server.py`.

The subprocess itself is replaced by its observable `outcome`; the
timestamp is the opaque result of `strftime("%Y%m%d-%H%M%S-%f")`.  All
three branches of the Python function (normal return, `TimeoutExpired`,
`except Exception`) write one log file and return the tri-tuple; no
exception escapes, which is why this is a total function. -/
def run_nix_command (args : List (List Char)) (logPre timestamp : List Char)
    (outcome : SubprocessOutcome) : RunResult :=
  let lf := logPath logPre timestamp
  match outcome with
  | .completed rc out err =>
    { success := rc == 0
      stdout := out
      log_file := lf
      log := ⟨lf, chars "Command: " ++ joinSpace args ++ '\n' ::
        (chars "Exit code: " ++ chars (toString rc) ++ '\n' ::
          (chars "\n=== STDOUT ===\n" ++ out ++ '\n' ::
            (chars "\n=== STDERR ===\n" ++ err ++ ['\n'])))⟩ }
  | .timedOut =>
    { success := false
      stdout := []
      log_file := lf
      log := ⟨lf, chars "Command: " ++ joinSpace args ++ '\n' ::
        (chars "Error: Command timed out after " ++ chars (toString timeoutSeconds) ++
          chars " seconds\n")⟩ }
  | .launchFailure msg =>
    { success := false
      stdout := []
      log_file := lf
      log := ⟨lf, chars "Command: " ++ joinSpace args ++ '\n' ::
        (chars "Error: " ++ msg ++ ['\n'])⟩ }

/-- A decoded JSON value, as produced by `json.loads`. -/
inductive PyJson where
  | null
  | bool (b : Bool)
  | num (n : Int)
  | str (s : List Char)
  | arr (xs : List PyJson)
  | obj (kvs : List (List Char × PyJson))

/-- Python `len` on a decoded JSON value: defined for `list`, `dict` and
`str`; raises `TypeError` (here: `none`) on `int`/`float`, `bool`, `None`. -/
def pyLen : PyJson → Option Nat
  | .arr xs => some xs.length
  | .obj kvs => some kvs.length
  | .str s => some s.length
  | _ => none

/-- The uncaught Python exceptions `call_tool` can raise. -/
inductive PyErr where
  | keyError (key : List Char)
  | typeError
deriving Repr, DecidableEq

/-- Either a decoded JSON structure or the trimmed raw-text fallback,
mirroring the `try: json.loads ... except JSONDecodeError: stdout.strip()`
two-branch shape of `nix_flake_show` / `nix_search`. -/
inductive JsonOrRaw where
  | parsed (v : PyJson)
  | raw (s : List Char)

/-- The response `dict` built by `call_tool`: `success` and `log_file` are
always present; the tool-specific keys are `Option`s that are `none` unless
the corresponding `result[...] = ...` assignment ran. -/
structure NixResponse where
  success : Bool
  log_file : List Char
  store_path : Option (List Char) := none
  result : Option (List Char) := none
  outputs : Option JsonOrRaw := none
  results : Option JsonOrRaw := none
  count : Option Nat := none

/-- The single `TextContent` returned by `call_tool`: either the
JSON-serialised response object or the plain `Unknown tool: ...` text. -/
inductive ReplyText where
  | jsonResp (r : NixResponse)
  | plain (s : List Char)

/-- A completed `call_tool` invocation: the text returned, the argument
vectors executed as subprocesses, and the log transcripts written. -/
structure CallReply where
  text : ReplyText
  commands : List (List (List Char))
  logs : List LogRecord

/-- The `arguments` mapping of a tool call: `none` means the key is absent
(`arguments["k"]` raises `KeyError`, `arguments.get("k", d)` yields `d`). -/
structure Arguments where
  flake_ref : Option (List Char) := none
  extra_args : Option (List (List Char)) := none
  raw : Option Bool := none
  json : Option Bool := none
  query : Option (List Char) := none

/-- The `nix_build` branch of `call_tool`. -/
def handleBuild (a : Arguments) (ts : List Char) (o : SubprocessOutcome) :
    Except PyErr CallReply :=
  match a.flake_ref with
  | none => .error (.keyError (chars "flake_ref"))
  | some flake_ref =>
    let extra_args := a.extra_args.getD []
    let args := [chars "nix", chars "build", flake_ref, chars "--show-trace",
      chars "--print-out-paths"] ++ extra_args
    let r := run_nix_command args (chars "build") ts o
    let base : NixResponse := { success := r.success, log_file := r.log_file }
    let resp :=
      if r.success = true ∧ pyStrip r.stdout ≠ [] then
        let store_path := pyStrip (lastElem (pySplit '\n' (pyStrip r.stdout)))
        if nixStoreMarker.isPrefixOf store_path then
          { base with store_path := some store_path }
        else base
      else base
    .ok ⟨.jsonResp resp, [args], [r.log]⟩

/-- The `nix_eval` branch of `call_tool`. -/
def handleEval (a : Arguments) (ts : List Char) (o : SubprocessOutcome) :
    Except PyErr CallReply :=
  match a.flake_ref with
  | none => .error (.keyError (chars "flake_ref"))
  | some flake_ref =>
    let raw := a.raw.getD false
    let as_json := a.json.getD false
    let args := ([chars "nix", chars "eval", flake_ref, chars "--show-trace"] ++
      (if raw then [chars "--raw"] else [])) ++
      (if as_json then [chars "--json"] else [])
    let r := run_nix_command args (chars "eval") ts o
    let base : NixResponse := { success := r.success, log_file := r.log_file }
    let resp := if r.success = true then { base with result := some (pyStrip r.stdout) } else base
    .ok ⟨.jsonResp resp, [args], [r.log]⟩

/-- The `nix_flake_show` branch of `call_tool`; `jp` models `json.loads`. -/
def handleFlakeShow (a : Arguments) (jp : List Char → Option PyJson)
    (ts : List Char) (o : SubprocessOutcome) : Except PyErr CallReply :=
  let flake_ref := a.flake_ref.getD (chars ".")
  let args := [chars "nix", chars "flake", chars "show", flake_ref, chars "--json"]
  let r := run_nix_command args (chars "flake-show") ts o
  let base : NixResponse := { success := r.success, log_file := r.log_file }
  let resp :=
    if r.success = true then
      match jp r.stdout with
      | some v => { base with outputs := some (.parsed v) }
      | none => { base with outputs := some (.raw (pyStrip r.stdout)) }
    else base
  .ok ⟨.jsonResp resp, [args], [r.log]⟩

/-- The `nix_flake_check` branch of `call_tool`. -/
def handleFlakeCheck (a : Arguments) (ts : List Char) (o : SubprocessOutcome) :
    Except PyErr CallReply :=
  let flake_ref := a.flake_ref.getD (chars ".")
  let args := [chars "nix", chars "flake", chars "check", flake_ref, chars "--show-trace"]
  let r := run_nix_command args (chars "flake-check") ts o
  .ok ⟨.jsonResp { success := r.success, log_file := r.log_file }, [args], [r.log]⟩

/-- The `nix_search` branch of `call_tool`.  `result["results"]` is assigned
before `len(search_results)` is computed, but if `len` raises `TypeError`
the exception propagates (`except` only catches `JSONDecodeError`) and no
response is produced. -/
def handleSearch (a : Arguments) (jp : List Char → Option PyJson)
    (ts : List Char) (o : SubprocessOutcome) : Except PyErr CallReply :=
  match a.query with
  | none => .error (.keyError (chars "query"))
  | some query =>
    let flake_ref := a.flake_ref.getD (chars "nixpkgs")
    let args := [chars "nix", chars "search", flake_ref, query, chars "--json"]
    let r := run_nix_command args (chars "search") ts o
    let base : NixResponse := { success := r.success, log_file := r.log_file }
    if r.success = true then
      match jp r.stdout with
      | some v =>
        match pyLen v with
        | some n =>
          .ok ⟨.jsonResp { base with results := some (.parsed v), count := some n },
            [args], [r.log]⟩
        | none => .error .typeError
      | none =>
        .ok ⟨.jsonResp { base with results := some (.raw (pyStrip r.stdout)) },
          [args], [r.log]⟩
    else .ok ⟨.jsonResp base, [args], [r.log]⟩

/-- `call_tool(name, arguments)` from `server.py`: the `if name == ...`
dispatch chain, ending in the plain `Unknown tool: {name}` reply (which
runs no subprocess and writes no log). -/
def call_tool (name : List Char) (arguments : Arguments)
    (jp : List Char → Option PyJson) (ts : List Char) (o : SubprocessOutcome) :
    Except PyErr CallReply :=
  if name = chars "nix_build" then handleBuild arguments ts o
  else if name = chars "nix_eval" then handleEval arguments ts o
  else if name = chars "nix_flake_show" then handleFlakeShow arguments jp ts o
  else if name = chars "nix_flake_check" then handleFlakeCheck arguments ts o
  else if name = chars "nix_search" then handleSearch arguments jp ts o
  else .ok ⟨.plain (chars "Unknown tool: " ++ name), [], []⟩

/-- The five catalog names declared by `list_tools`. -/
def toolNames : List (List Char) :=
  [chars "nix_build", chars "nix_eval", chars "nix_flake_show",
   chars "nix_flake_check", chars "nix_search"]

/-- The JSON response of a completed call, if it produced one. -/
def respOf : Except PyErr CallReply → Option NixResponse
  | .ok ⟨.jsonResp r, _, _⟩ => some r
  | _ => none

/-- Spec-side reading (for the `nix_build` claim): a line is blank when it
consists of whitespace only. -/
def isBlankLine (l : List Char) : Bool := l.all pyIsSpace

/-- Spec-side reading: the last non-blank line of a text — the last element
of its newline-split that is not whitespace-only. -/
def lastNonBlankLine (s : List Char) : Option (List Char) :=
  List.find? (fun l => !(isBlankLine l)) (pySplit '\n' s).reverse

/-- Reversed tail fragment of a text: drop trailing whitespace, then take
back to the previous newline.  Both the code's `stdout.strip().split("\n")[-1]`
and the spec's last non-blank line reduce to this, up to stripping. -/
def rawTail (s : List Char) : List Char :=
  ((s.reverse.dropWhile pyIsSpace).takeWhile (fun c => c != '\n')).reverse

/-- Append a character to the last piece of a split (`[[c]]` on `[]`). -/
def appLast : List (List Char) → Char → List (List Char)
  | [], c => [[c]]
  | [l], c => [l ++ [c]]
  | l :: l' :: ls, c => l :: appLast (l' :: ls) c

/-- The response/commands/logs shape every successful five-tool dispatch
produces: one executed argv, one log transcript from `run_nix_command`, and
a JSON response whose `log_file` is the transcript's path. -/
def goodReply (pre ts : List Char) (o : SubprocessOutcome) (c : CallReply) : Prop :=
  ∃ argv, c.commands = [argv] ∧
    c.logs = [(run_nix_command argv pre ts o).log] ∧
    ∃ r, c.text = .jsonResp r ∧ r.log_file = logPath pre ts

/-- Concrete response for the C1 witness. -/
def respW1 : NixResponse :=
  { success := true, log_file := logPath (chars "build") (chars "T"),
    store_path := some (chars "/nix/store/abc123-pkg") }

/-- Concrete reply for the C6 witness: `nix_flake_check` with defaulted
`flake_ref` under a timeout. -/
def replyW6 : CallReply :=
  ⟨.jsonResp { success := false, log_file := logPath (chars "flake-check") (chars "T") },
   [[chars "nix", chars "flake", chars "check", chars ".", chars "--show-trace"]],
   [(run_nix_command [chars "nix", chars "flake", chars "check", chars ".",
      chars "--show-trace"] (chars "flake-check") (chars "T")
      SubprocessOutcome.timedOut).log]⟩

/-- Concrete failing response for the C4 witness (timed-out `nix_eval`). -/
def rW4 : NixResponse :=
  { success := false, log_file := logPath (chars "eval") (chars "T") }

/-- Concrete reply for the C4 witness. -/
def cW4 : CallReply :=
  ⟨.jsonResp rW4, [[chars "nix", chars "eval", chars ".", chars "--show-trace"]],
   [(run_nix_command [chars "nix", chars "eval", chars ".", chars "--show-trace"]
      (chars "eval") (chars "T") SubprocessOutcome.timedOut).log]⟩

/-- Concrete argv for the C5 witness. -/
def argvW5 : List (List Char) :=
  [chars "nix", chars "eval", chars "nixpkgs#hello.version",
   chars "--show-trace", chars "--raw"]

/-- Concrete reply for the C5 witness. -/
def cW5 : CallReply :=
  ⟨.jsonResp { success := true, log_file := logPath (chars "eval") (chars "T"),
               result := some (chars "2.12") },
   [argvW5],
   [(run_nix_command argvW5 (chars "eval") (chars "T")
      (.completed 0 (chars "2.12\n") [])).log]⟩

/-- Is a decoded JSON value an array? (for stating the counterexample) -/
def isArrJson : PyJson → Bool
  | .arr _ => true
  | _ => false

/-- `json.loads` behaviour on the two-character text `{}`: the empty object. -/
def jpC3 : List Char → Option PyJson :=
  fun s => if s = chars "\x7b\x7d" then some (.obj []) else none

/-- Concrete response for the C3 witness. -/
def rW3 : NixResponse :=
  { success := true, log_file := logPath (chars "search") (chars "T"),
    results := some (.parsed (.arr [PyJson.null])), count := some 1 }

/-! ### Helper lemmas about the Python string operations -/

theorem split_ne_nil (sep : Char) (s : List Char) : pySplit sep s ≠ [] := by
  cases s with
  | nil => simp [pySplit]
  | cons c cs =>
    simp only [pySplit]
    split
    · simp
    · split <;> simp

theorem split_head {sep : Char} : ∀ {s l : List Char} {ls : List (List Char)},
    pySplit sep s = l :: ls → l = s.takeWhile (fun c => c != sep) := by
  intro s
  induction s with
  | nil =>
    intro l ls h
    simp only [pySplit, List.cons.injEq] at h
    simp [← h.1]
  | cons c cs ih =>
    intro l ls h
    by_cases hc : c = sep
    · simp only [pySplit, if_pos hc, List.cons.injEq] at h
      simp [List.takeWhile_cons, hc, ← h.1]
    · simp only [pySplit, if_neg hc] at h
      cases hP : pySplit sep cs with
      | nil => exact absurd hP (split_ne_nil sep cs)
      | cons l₀ ls₀ =>
        rw [hP] at h
        simp only [List.cons.injEq] at h
        rw [List.takeWhile_cons, if_pos (by simp [hc])]
        rw [← h.1, ← ih hP]

theorem appLast_snoc : ∀ (A : List (List Char)) (b : List Char) (c : Char),
    appLast (A ++ [b]) c = A ++ [b ++ [c]] := by
  intro A
  induction A with
  | nil => intro b c; rfl
  | cons a as ih =>
    intro b c
    cases h : as ++ [b] with
    | nil => exact absurd h (by simp)
    | cons x xs =>
      show appLast (a :: (as ++ [b])) c = a :: (as ++ [b ++ [c]])
      rw [h]
      show a :: appLast (x :: xs) c = a :: (as ++ [b ++ [c]])
      rw [← h, ih]

theorem split_snoc_sep (sep : Char) : ∀ (t : List Char),
    pySplit sep (t ++ [sep]) = pySplit sep t ++ [[]] := by
  intro t
  induction t with
  | nil => simp [pySplit]
  | cons d ds ih =>
    by_cases hd : d = sep
    · show pySplit sep (d :: (ds ++ [sep])) = pySplit sep (d :: ds) ++ [[]]
      simp only [pySplit, if_pos hd, ih, List.cons_append]
    · show pySplit sep (d :: (ds ++ [sep])) = pySplit sep (d :: ds) ++ [[]]
      simp only [pySplit, if_neg hd, ih]
      cases hP : pySplit sep ds with
      | nil => exact absurd hP (split_ne_nil sep ds)
      | cons l₀ ls₀ => simp

theorem split_snoc_ne (sep : Char) {c : Char} (hc : c ≠ sep) : ∀ (t : List Char),
    pySplit sep (t ++ [c]) = appLast (pySplit sep t) c := by
  intro t
  induction t with
  | nil => simp [pySplit, if_neg hc, appLast]
  | cons d ds ih =>
    by_cases hd : d = sep
    · show pySplit sep (d :: (ds ++ [c])) = appLast (pySplit sep (d :: ds)) c
      simp only [pySplit, if_pos hd, ih]
      cases hP : pySplit sep ds with
      | nil => exact absurd hP (split_ne_nil sep ds)
      | cons l₀ ls₀ => rfl
    · show pySplit sep (d :: (ds ++ [c])) = appLast (pySplit sep (d :: ds)) c
      simp only [pySplit, if_neg hd, ih]
      cases hP : pySplit sep ds with
      | nil => exact absurd hP (split_ne_nil sep ds)
      | cons l₀ ls₀ =>
        cases ls₀ with
        | nil => simp [appLast]
        | cons x xs => simp [appLast]

theorem split_reverse (sep : Char) : ∀ (s : List Char),
    pySplit sep s.reverse = ((pySplit sep s).map List.reverse).reverse := by
  intro s
  induction s with
  | nil => simp [pySplit]
  | cons c cs ih =>
    rw [List.reverse_cons]
    by_cases hc : c = sep
    · subst hc
      rw [split_snoc_sep, ih]
      simp [pySplit]
    · rw [split_snoc_ne sep hc, ih]
      cases hP : pySplit sep cs with
      | nil => exact absurd hP (split_ne_nil sep cs)
      | cons l₀ ls₀ =>
        simp only [pySplit, if_neg hc, hP, List.map_cons, List.reverse_cons]
        rw [appLast_snoc]

theorem split_rev (sep : Char) (s : List Char) :
    (pySplit sep s).reverse = (pySplit sep s.reverse).map List.reverse := by
  rw [split_reverse]
  rw [← List.map_reverse, List.map_map]
  simp [Function.comp_def]

theorem lastElem_append_singleton : ∀ (A : List (List Char)) (b : List Char),
    lastElem (A ++ [b]) = b := by
  intro A
  induction A with
  | nil => intro b; rfl
  | cons a as ih =>
    intro b
    cases h : as ++ [b] with
    | nil => exact absurd h (by simp)
    | cons x xs =>
      show lastElem (a :: (as ++ [b])) = b
      rw [h]
      show lastElem (x :: xs) = b
      rw [← h, ih]

theorem lastElem_split (sep : Char) (t : List Char) :
    lastElem (pySplit sep t) = (t.reverse.takeWhile (fun c => c != sep)).reverse := by
  cases hP : pySplit sep t.reverse with
  | nil => exact absurd hP (split_ne_nil sep t.reverse)
  | cons l₀ ls₀ =>
    have hrev : (pySplit sep t).reverse = l₀.reverse :: ls₀.map List.reverse := by
      rw [split_rev, hP, List.map_cons]
    have hX : pySplit sep t = (ls₀.map List.reverse).reverse ++ [l₀.reverse] := by
      rw [← List.reverse_reverse (pySplit sep t), hrev, List.reverse_cons]
    rw [hX, lastElem_append_singleton, split_head hP]

theorem tw_stop {p : Char → Bool} {A : List Char} (B : List Char)
    (h : ∃ a ∈ A, p a = false) : (A ++ B).takeWhile p = A.takeWhile p := by
  induction A with
  | nil => simp at h
  | cons a as ih =>
    rcases h with ⟨x, hx, hpx⟩
    rcases List.mem_cons.mp hx with hxa | hxas
    · subst hxa
      rw [List.cons_append, List.takeWhile_cons, List.takeWhile_cons, hpx]
      simp
    · rw [List.cons_append, List.takeWhile_cons, List.takeWhile_cons]
      cases hpa : p a
      · simp
      · simp only [ih ⟨x, hxas, hpx⟩]

theorem dw_stop {p : Char → Bool} {A : List Char} (B : List Char)
    (h : A.dropWhile p ≠ []) : (A ++ B).dropWhile p = A.dropWhile p ++ B := by
  induction A with
  | nil => simp at h
  | cons a as ih =>
    rw [List.cons_append, List.dropWhile_cons, List.dropWhile_cons]
    cases hpa : p a
    · simp
    · simp only [if_pos rfl]
      rw [List.dropWhile_cons, hpa, if_pos rfl] at h
      exact ih h

theorem strip_nil_iff {s : List Char} :
    pyStrip s = [] ↔ ∀ a ∈ s, pyIsSpace a = true := by
  unfold pyStrip
  rw [List.reverse_eq_nil_iff, List.dropWhile_eq_nil_iff]
  constructor
  · intro h a ha
    rw [← List.takeWhile_append_dropWhile pyIsSpace s] at ha
    rcases List.mem_append.mp ha with hta | hda
    · exact List.mem_takeWhile_imp hta
    · exact h a (List.mem_reverse.mpr hda)
  · intro h a ha
    have : a ∈ s.dropWhile pyIsSpace := List.mem_reverse.mp ha
    have : a ∈ s := by
      rw [← List.takeWhile_append_dropWhile pyIsSpace s]
      exact List.mem_append_right _ this
    exact h a this

theorem strip_ws_left {A z : List Char} (h : ∀ a ∈ A, pyIsSpace a = true) :
    pyStrip (A ++ z) = pyStrip z := by
  unfold pyStrip
  rw [List.dropWhile_append_of_pos h]

theorem strip_ws_right {z B : List Char} (h : ∀ a ∈ B, pyIsSpace a = true) :
    pyStrip (z ++ B) = pyStrip z := by
  unfold pyStrip
  by_cases hz : z.dropWhile pyIsSpace = []
  · have hB : B.dropWhile pyIsSpace = [] := List.dropWhile_eq_nil_iff.mpr h
    rw [List.dropWhile_append, hz]
    simp [hB, hz]
  · rw [dw_stop B hz, List.reverse_append,
      List.dropWhile_append_of_pos (fun a ha => h a (List.mem_reverse.mp ha))]

/-- Core induction, stated on the reversed text `rs`: either `rs` is all
whitespace and the newline-split has no non-blank piece, or the first
non-blank piece `M` exists and `rs` with leading whitespace dropped, taken
up to the first newline, is exactly `M` with leading whitespace dropped. -/
theorem find_split_char : ∀ (rs : List Char),
    (rs.dropWhile pyIsSpace = [] ∧
      List.find? (fun l => !(isBlankLine l)) (pySplit '\n' rs) = none)
    ∨ (∃ M, List.find? (fun l => !(isBlankLine l)) (pySplit '\n' rs) = some M ∧
        (rs.dropWhile pyIsSpace).takeWhile (fun c => c != '\n') = M.dropWhile pyIsSpace) := by
  intro rs
  induction rs with
  | nil => exact Or.inl ⟨rfl, rfl⟩
  | cons c cs ih =>
    by_cases hW : pyIsSpace c = true
    · by_cases hnl : c = '\n'
      · subst hnl
        have hsplit : pySplit '\n' ('\n' :: cs) = [] :: pySplit '\n' cs := by
          simp [pySplit]
        have hdw : ('\n' :: cs).dropWhile pyIsSpace = cs.dropWhile pyIsSpace := by
          rw [List.dropWhile_cons, if_pos hW]
        have hfind : List.find? (fun l => !(isBlankLine l)) (pySplit '\n' ('\n' :: cs)) =
            List.find? (fun l => !(isBlankLine l)) (pySplit '\n' cs) := by
          rw [hsplit, List.find?_cons]
          simp [isBlankLine]
        rw [hdw, hfind]
        exact ih
      · obtain ⟨l₀, ls₀, hP⟩ : ∃ l₀ ls₀, pySplit '\n' cs = l₀ :: ls₀ := by
          cases h : pySplit '\n' cs with
          | nil => exact absurd h (split_ne_nil _ _)
          | cons a b => exact ⟨a, b, rfl⟩
        have hsplit : pySplit '\n' (c :: cs) = (c :: l₀) :: ls₀ := by
          simp [pySplit, hnl, hP]
        have hbl : isBlankLine (c :: l₀) = isBlankLine l₀ := by
          simp [isBlankLine, List.all_cons, hW]
        have hdw : (c :: cs).dropWhile pyIsSpace = cs.dropWhile pyIsSpace := by
          rw [List.dropWhile_cons, if_pos hW]
        rw [hsplit, hdw]
        cases hb : isBlankLine l₀ with
        | false =>
          right
          have hfind : List.find? (fun l => !(isBlankLine l)) ((c :: l₀) :: ls₀) =
              some (c :: l₀) := by
            rw [List.find?_cons]
            simp [hbl, hb]
          rcases ih with ⟨h1, h2⟩ | ⟨M, h1, h2⟩
          · rw [hP, List.find?_cons] at h2
            simp [hb] at h2
          · rw [hP, List.find?_cons] at h1
            simp only [hb, Bool.not_false] at h1
            injection h1 with hM
            refine ⟨c :: l₀, hfind, ?_⟩
            rw [← hM] at h2
            rw [h2, List.dropWhile_cons, if_pos hW]
        | true =>
          have hskip : List.find? (fun l => !(isBlankLine l)) ((c :: l₀) :: ls₀) =
              List.find? (fun l => !(isBlankLine l)) ls₀ := by
            rw [List.find?_cons]
            simp [hbl, hb]
          rcases ih with ⟨h1, h2⟩ | ⟨M, h1, h2⟩
          · left
            refine ⟨h1, ?_⟩
            rw [hskip]
            rw [hP, List.find?_cons] at h2
            simp only [hb, Bool.not_true] at h2
            exact h2
          · right
            refine ⟨M, ?_, h2⟩
            rw [hskip]
            rw [hP, List.find?_cons] at h1
            simp only [hb, Bool.not_true] at h1
            exact h1
    · have hW' : pyIsSpace c = false := by
        cases h : pyIsSpace c
        · rfl
        · exact absurd h hW
      have hnl : c ≠ '\n' := by
        intro h
        subst h
        exact hW rfl
      obtain ⟨l₀, ls₀, hP⟩ : ∃ l₀ ls₀, pySplit '\n' cs = l₀ :: ls₀ := by
        cases h : pySplit '\n' cs with
        | nil => exact absurd h (split_ne_nil _ _)
        | cons a b => exact ⟨a, b, rfl⟩
      have hsplit : pySplit '\n' (c :: cs) = (c :: l₀) :: ls₀ := by
        simp [pySplit, hnl, hP]
      right
      refine ⟨c :: l₀, ?_, ?_⟩
      · rw [hsplit, List.find?_cons]
        simp [isBlankLine, List.all_cons, hW']
      · rw [List.dropWhile_cons, if_neg (by simp [hW']),
          List.takeWhile_cons, if_pos (by simp [hnl]),
          List.dropWhile_cons, if_neg (by simp [hW'])]
        rw [← split_head hP]

/-- The code's `stdout.strip().split("\n")[-1].strip()` equals the strip of
the canonical tail fragment `rawTail`. -/
theorem code_canon (s : List Char) :
    pyStrip (lastElem (pySplit '\n' (pyStrip s))) = pyStrip (rawTail s) := by
  rw [lastElem_split]
  unfold rawTail
  have hrev : (pyStrip s).reverse = (s.dropWhile pyIsSpace).reverse.dropWhile pyIsSpace := by
    unfold pyStrip
    rw [List.reverse_reverse]
  rw [hrev]
  by_cases hx : s.dropWhile pyIsSpace = []
  · have hall : ∀ a ∈ s, pyIsSpace a = true := List.dropWhile_eq_nil_iff.mp hx
    have hrevnil : s.reverse.dropWhile pyIsSpace = [] :=
      List.dropWhile_eq_nil_iff.mpr (fun a ha => hall a (List.mem_reverse.mp ha))
    rw [hx, hrevnil]
    rfl
  · have hq : (s.dropWhile pyIsSpace).reverse.dropWhile pyIsSpace ≠ [] := by
      intro hcon
      have hallrev := List.dropWhile_eq_nil_iff.mp hcon
      have hhead : pyIsSpace ((s.dropWhile pyIsSpace).head hx) = false :=
        List.head_dropWhile_not pyIsSpace s hx
      have hmem : (s.dropWhile pyIsSpace).head hx ∈ (s.dropWhile pyIsSpace).reverse :=
        List.mem_reverse.mpr (List.head_mem hx)
      rw [hallrev _ hmem] at hhead
      cases hhead
    have hsrev : s.reverse =
        (s.dropWhile pyIsSpace).reverse ++ (s.takeWhile pyIsSpace).reverse := by
      rw [← List.reverse_append, List.takeWhile_append_dropWhile]
    rw [hsrev, dw_stop _ hq]
    by_cases hnl : ∀ a ∈ (s.dropWhile pyIsSpace).reverse.dropWhile pyIsSpace,
        (a != '\n') = true
    · rw [List.takeWhile_append_of_pos hnl, List.takeWhile_eq_self_iff.mpr hnl,
        List.reverse_append]
      rw [strip_ws_left (fun a ha =>
        List.mem_takeWhile_imp (List.mem_reverse.mp
          ((List.takeWhile_sublist _).subset (List.mem_reverse.mp ha))))]
    · push_neg at hnl
      obtain ⟨a, ha, hpa⟩ := hnl
      have hfa : (a != '\n') = false := by
        cases h : (a != '\n')
        · rfl
        · exact absurd h hpa
      rw [tw_stop _ ⟨a, ha, hfa⟩]

/-- The last non-blank line is absent exactly when the stripped text is
empty (the text is whitespace-only). -/
theorem lnbl_none_iff {s : List Char} :
    lastNonBlankLine s = none ↔ pyStrip s = [] := by
  unfold lastNonBlankLine
  rw [split_rev]
  have hnb : (fun l => !(isBlankLine (List.reverse l))) = (fun l => !(isBlankLine l)) := by
    funext l
    simp [isBlankLine]
  rw [List.find?_map]
  constructor
  · intro h
    rcases find_split_char s.reverse with ⟨h1, _⟩ | ⟨M, h1, _⟩
    · rw [strip_nil_iff]
      intro a ha
      exact List.dropWhile_eq_nil_iff.mp h1 a (List.mem_reverse.mpr ha)
    · rw [Function.comp_def, hnb, h1] at h
      cases h
  · intro h
    rcases find_split_char s.reverse with ⟨_, h2⟩ | ⟨M, h1, h2⟩
    · rw [Function.comp_def, hnb, h2]
      rfl
    · have hMnb := List.find?_some h1
      have hM : ∃ a ∈ M, pyIsSpace a = false := by
        simp only [Bool.not_eq_true'] at hMnb
        unfold isBlankLine at hMnb
        rw [List.all_eq_false] at hMnb
        obtain ⟨a, ha, hpa⟩ := hMnb
        exact ⟨a, ha, by simpa using hpa⟩
      have hdw : s.reverse.dropWhile pyIsSpace = [] := by
        rw [List.dropWhile_eq_nil_iff]
        intro a ha
        exact strip_nil_iff.mp h a (List.mem_reverse.mp ha)
      rw [hdw] at h2
      obtain ⟨a, ha, hpa⟩ := hM
      have : M.dropWhile pyIsSpace = [] := h2.symm
      rw [List.dropWhile_eq_nil_iff] at this
      rw [this a ha] at hpa
      cases hpa

/-- When the last non-blank line exists, its strip equals the strip of the
canonical tail fragment. -/
theorem lnbl_some_strip {s L : List Char} (h : lastNonBlankLine s = some L) :
    pyStrip L = pyStrip (rawTail s) := by
  unfold lastNonBlankLine at h
  rw [split_rev, List.find?_map] at h
  have hnb : ((fun l => !(isBlankLine l)) ∘ List.reverse) = (fun l => !(isBlankLine l)) := by
    funext l
    simp [isBlankLine]
  rw [hnb] at h
  rcases find_split_char s.reverse with ⟨_, h2⟩ | ⟨M, h1, h2⟩
  · rw [h2] at h
    cases h
  · rw [h1] at h
    simp only [Option.map_some'] at h
    injection h with hL
    subst hL
    unfold rawTail
    rw [h2]
    have hM : M.reverse = (M.dropWhile pyIsSpace).reverse ++ (M.takeWhile pyIsSpace).reverse := by
      rw [← List.reverse_append, List.takeWhile_append_dropWhile]
    rw [hM, strip_ws_right (fun a ha =>
      List.mem_takeWhile_imp (List.mem_reverse.mp ha))]

/-! ### Unfolding the dispatch chain -/

theorem call_tool_build (a : Arguments) (jp : List Char → Option PyJson)
    (ts : List Char) (o : SubprocessOutcome) :
    call_tool (chars "nix_build") a jp ts o = handleBuild a ts o := rfl

theorem call_tool_eval (a : Arguments) (jp : List Char → Option PyJson)
    (ts : List Char) (o : SubprocessOutcome) :
    call_tool (chars "nix_eval") a jp ts o = handleEval a ts o := rfl

theorem call_tool_flake_show (a : Arguments) (jp : List Char → Option PyJson)
    (ts : List Char) (o : SubprocessOutcome) :
    call_tool (chars "nix_flake_show") a jp ts o = handleFlakeShow a jp ts o := rfl

theorem call_tool_flake_check (a : Arguments) (jp : List Char → Option PyJson)
    (ts : List Char) (o : SubprocessOutcome) :
    call_tool (chars "nix_flake_check") a jp ts o = handleFlakeCheck a ts o := rfl

theorem call_tool_search (a : Arguments) (jp : List Char → Option PyJson)
    (ts : List Char) (o : SubprocessOutcome) :
    call_tool (chars "nix_search") a jp ts o = handleSearch a jp ts o := rfl

/-! ### Claim C1 -/

/-- C1, amended: for every `nix_build` call that produces a response, the
response's `store_path` is present iff the command exited 0 and the last
non-blank line of stdout, with surrounding whitespace stripped, starts with
`/nix/store/`; when present it equals that stripped line.  (The original
claim tested the prefix on the unstripped line; see the counterexample.) -/
theorem C1_build_store_path (a : Arguments) (fr : List Char)
    (jp : List Char → Option PyJson) (ts : List Char) (o : SubprocessOutcome)
    (r : NixResponse) (hfr : a.flake_ref = some fr)
    (hr : respOf (call_tool (chars "nix_build") a jp ts o) = some r) :
    r.store_path =
      match o with
      | .completed rc out _ =>
        if rc = 0 then
          match lastNonBlankLine out with
          | some L =>
            if nixStoreMarker.isPrefixOf (pyStrip L) then some (pyStrip L) else none
          | none => none
        else none
      | .timedOut => none
      | .launchFailure _ => none := by
  rw [call_tool_build] at hr
  unfold handleBuild at hr
  rw [hfr] at hr
  simp only [respOf, Option.some.injEq] at hr
  subst hr
  cases o with
  | completed rc out err =>
    simp only [run_nix_command]
    by_cases hrc : rc = 0
    · subst hrc
      by_cases hst : pyStrip out = []
      · have hnone := lnbl_none_iff.mpr hst
        simp [hst, hnone]
      · cases hLo : lastNonBlankLine out with
        | none => exact absurd (lnbl_none_iff.mp hLo) hst
        | some L =>
          have hcc : pyStrip (lastElem (pySplit '\n' (pyStrip out))) = pyStrip L := by
            rw [code_canon, lnbl_some_strip hLo]
          simp only [if_pos rfl]
          rw [if_pos ⟨rfl, hst⟩]
          rw [hcc]
          split
          · rfl
          · rfl
    · have hne : ¬ ((rc == 0) = true ∧ pyStrip out ≠ []) := by
        rintro ⟨hc, -⟩
        exact hrc ((beq_iff_eq ..).mp hc)
      rw [if_neg hne, if_neg hrc]
  | timedOut =>
    simp [run_nix_command]
  | launchFailure msg =>
    simp [run_nix_command]

/-- C1, counterexample to the claim as stated: with exit code 0 and stdout
`" /nix/store/abc123-pkg"`, whose last non-blank line does *not* start with
`/nix/store/` (it starts with a space), the response nevertheless contains
`store_path = "/nix/store/abc123-pkg"`. -/
theorem C1_counterexample :
    respOf (call_tool (chars "nix_build") { flake_ref := some (chars ".#default") }
        (fun _ => none) (chars "T")
        (.completed 0 (chars " /nix/store/abc123-pkg") [])) =
      some { success := true, log_file := logPath (chars "build") (chars "T"),
             store_path := some (chars "/nix/store/abc123-pkg") } ∧
    lastNonBlankLine (chars " /nix/store/abc123-pkg") =
      some (chars " /nix/store/abc123-pkg") ∧
    nixStoreMarker.isPrefixOf (chars " /nix/store/abc123-pkg") = false :=
  ⟨rfl, rfl, rfl⟩

/-- C1, witness: the spec's own example scenario — exit 0 with stdout
`"/nix/store/abc123-pkg\n"` yields `store_path = "/nix/store/abc123-pkg"`. -/
theorem C1_witness :
    respOf (call_tool (chars "nix_build") { flake_ref := some (chars ".#default") }
        (fun _ => none) (chars "T")
        (.completed 0 (chars "/nix/store/abc123-pkg\n") [])) = some respW1 ∧
    respW1.store_path = some (chars "/nix/store/abc123-pkg") := by
  constructor
  · rfl
  · have h := C1_build_store_path { flake_ref := some (chars ".#default") }
      (chars ".#default") (fun _ => none) (chars "T")
      (.completed 0 (chars "/nix/store/abc123-pkg\n") []) respW1 rfl rfl
    rw [h]
    rfl

/-! ### Claim C2 -/

/-- C2: `run_nix_command` always returns the tri-tuple (it is a total
function — no exception escapes): on completion `success` is `rc == 0` and
`stdout` is the captured stdout; on timeout (the `timeout=300` of
`subprocess.run`) or any other launch exception, `success` is `false` and
`stdout` is empty; the third component is always the log file path. -/
theorem C2_run_nix_command (args : List (List Char)) (pre ts : List Char)
    (o : SubprocessOutcome) :
    (run_nix_command args pre ts o).log_file = logPath pre ts ∧
    (run_nix_command args pre ts o).success =
      (match o with
       | .completed rc _ _ => rc == 0
       | .timedOut => false
       | .launchFailure _ => false) ∧
    (run_nix_command args pre ts o).stdout =
      (match o with
       | .completed _ out _ => out
       | .timedOut => []
       | .launchFailure _ => []) ∧
    timeoutSeconds = 300 := by
  cases o <;> exact ⟨rfl, rfl, rfl, rfl⟩

/-! ### Log transcript lemmas and claim C6 -/

theorem run_log_file {args : List (List Char)} {pre ts : List Char}
    {o : SubprocessOutcome} :
    (run_nix_command args pre ts o).log_file = logPath pre ts := by
  cases o <;> rfl

theorem run_log_path {args : List (List Char)} {pre ts : List Char}
    {o : SubprocessOutcome} :
    (run_nix_command args pre ts o).log.path = logPath pre ts := by
  cases o <;> rfl

theorem run_content {args : List (List Char)} {pre ts : List Char}
    {o : SubprocessOutcome} :
    ∃ rest, (run_nix_command args pre ts o).log.content =
      chars "Command: " ++ (joinSpace args ++ '\n' :: rest) := by
  cases o <;> exact ⟨_, rfl⟩

theorem mem_joinSpace : ∀ (L : List (List Char)) (a : Char),
    a ∈ joinSpace L → a = ' ' ∨ ∃ l ∈ L, a ∈ l := by
  intro L
  induction L with
  | nil => intro a ha; simp [joinSpace] at ha
  | cons l ls ih =>
    intro a ha
    cases ls with
    | nil =>
      right
      exact ⟨l, List.mem_cons_self l [], ha⟩
    | cons l' ls' =>
      rw [show joinSpace (l :: l' :: ls') = l ++ ' ' :: joinSpace (l' :: ls') from rfl] at ha
      rcases List.mem_append.mp ha with hl | hrest
      · exact Or.inr ⟨l, List.mem_cons_self _ _, hl⟩
      · rcases List.mem_cons.mp hrest with hsp | hj
        · exact Or.inl hsp
        · rcases ih a hj with hsp | ⟨m, hm, ham⟩
          · exact Or.inl hsp
          · exact Or.inr ⟨m, List.mem_cons_of_mem _ hm, ham⟩

theorem handleBuild_good {a : Arguments} {ts : List Char} {o : SubprocessOutcome}
    {c : CallReply} (h : handleBuild a ts o = .ok c) :
    goodReply (chars "build") ts o c := by
  cases hfr : a.flake_ref with
  | none => simp [handleBuild, hfr] at h
  | some fr =>
    simp only [handleBuild, hfr, Except.ok.injEq] at h
    subst h
    refine ⟨_, rfl, rfl, _, rfl, ?_⟩
    repeat' split
    all_goals exact run_log_file

theorem handleEval_good {a : Arguments} {ts : List Char} {o : SubprocessOutcome}
    {c : CallReply} (h : handleEval a ts o = .ok c) :
    goodReply (chars "eval") ts o c := by
  cases hfr : a.flake_ref with
  | none => simp [handleEval, hfr] at h
  | some fr =>
    simp only [handleEval, hfr, Except.ok.injEq] at h
    subst h
    refine ⟨_, rfl, rfl, _, rfl, ?_⟩
    repeat' split
    all_goals exact run_log_file

theorem handleFlakeShow_good {a : Arguments} {jp : List Char → Option PyJson}
    {ts : List Char} {o : SubprocessOutcome} {c : CallReply}
    (h : handleFlakeShow a jp ts o = .ok c) :
    goodReply (chars "flake-show") ts o c := by
  simp only [handleFlakeShow, Except.ok.injEq] at h
  subst h
  refine ⟨_, rfl, rfl, _, rfl, ?_⟩
  repeat' split
  all_goals exact run_log_file

theorem handleFlakeCheck_good {a : Arguments} {ts : List Char} {o : SubprocessOutcome}
    {c : CallReply} (h : handleFlakeCheck a ts o = .ok c) :
    goodReply (chars "flake-check") ts o c := by
  simp only [handleFlakeCheck, Except.ok.injEq] at h
  subst h
  exact ⟨_, rfl, rfl, _, rfl, run_log_file⟩

theorem handleSearch_good {a : Arguments} {jp : List Char → Option PyJson}
    {ts : List Char} {o : SubprocessOutcome} {c : CallReply}
    (h : handleSearch a jp ts o = .ok c) :
    goodReply (chars "search") ts o c := by
  cases hq : a.query with
  | none => simp [handleSearch, hq] at h
  | some q =>
    simp only [handleSearch, hq] at h
    split at h
    · split at h
      · split at h
        · rw [Except.ok.injEq] at h
          subst h
          exact ⟨_, rfl, rfl, _, rfl, run_log_file⟩
        · cases h
      · rw [Except.ok.injEq] at h
        subst h
        exact ⟨_, rfl, rfl, _, rfl, run_log_file⟩
    · rw [Except.ok.injEq] at h
      subst h
      exact ⟨_, rfl, rfl, _, rfl, run_log_file⟩

/-! ### Response normal forms for each handler -/

theorem handleBuild_resp {a : Arguments} {fr ts : List Char} {o : SubprocessOutcome}
    {c : CallReply} (hfr : a.flake_ref = some fr) (h : handleBuild a ts o = .ok c) :
    ∃ args, args = [chars "nix", chars "build", fr, chars "--show-trace",
        chars "--print-out-paths"] ++ a.extra_args.getD [] ∧
    c = ⟨.jsonResp
      { success := (run_nix_command args (chars "build") ts o).success,
        log_file := (run_nix_command args (chars "build") ts o).log_file,
        store_path :=
          if (run_nix_command args (chars "build") ts o).success = true ∧
              pyStrip (run_nix_command args (chars "build") ts o).stdout ≠ [] then
            if nixStoreMarker.isPrefixOf (pyStrip (lastElem (pySplit '\n'
                (pyStrip (run_nix_command args (chars "build") ts o).stdout)))) then
              some (pyStrip (lastElem (pySplit '\n'
                (pyStrip (run_nix_command args (chars "build") ts o).stdout))))
            else none
          else none },
      [args], [(run_nix_command args (chars "build") ts o).log]⟩ := by
  refine ⟨_, rfl, ?_⟩
  simp only [handleBuild, hfr, Except.ok.injEq] at h
  rw [← h]
  split_ifs <;> rfl

theorem handleEval_resp {a : Arguments} {fr ts : List Char} {o : SubprocessOutcome}
    {c : CallReply} (hfr : a.flake_ref = some fr) (h : handleEval a ts o = .ok c) :
    ∃ args, args = ([chars "nix", chars "eval", fr, chars "--show-trace"] ++
        (if a.raw.getD false then [chars "--raw"] else [])) ++
        (if a.json.getD false then [chars "--json"] else []) ∧
    c = ⟨.jsonResp
      { success := (run_nix_command args (chars "eval") ts o).success,
        log_file := (run_nix_command args (chars "eval") ts o).log_file,
        result :=
          if (run_nix_command args (chars "eval") ts o).success = true then
            some (pyStrip (run_nix_command args (chars "eval") ts o).stdout)
          else none },
      [args], [(run_nix_command args (chars "eval") ts o).log]⟩ := by
  refine ⟨_, rfl, ?_⟩
  simp only [handleEval, hfr, Except.ok.injEq] at h
  rw [← h]
  split_ifs <;> rfl

theorem handleFlakeShow_resp {a : Arguments} {jp : List Char → Option PyJson}
    {ts : List Char} {o : SubprocessOutcome} {c : CallReply}
    (h : handleFlakeShow a jp ts o = .ok c) :
    ∃ args, args = [chars "nix", chars "flake", chars "show",
        a.flake_ref.getD (chars "."), chars "--json"] ∧
    c = ⟨.jsonResp
      { success := (run_nix_command args (chars "flake-show") ts o).success,
        log_file := (run_nix_command args (chars "flake-show") ts o).log_file,
        outputs :=
          if (run_nix_command args (chars "flake-show") ts o).success = true then
            some (match jp (run_nix_command args (chars "flake-show") ts o).stdout with
                  | some v => .parsed v
                  | none => .raw (pyStrip
                      (run_nix_command args (chars "flake-show") ts o).stdout))
          else none },
      [args], [(run_nix_command args (chars "flake-show") ts o).log]⟩ := by
  refine ⟨_, rfl, ?_⟩
  simp only [handleFlakeShow, Except.ok.injEq] at h
  rw [← h]
  split_ifs with hs
  · cases hjp : jp ((run_nix_command [chars "nix", chars "flake", chars "show",
        a.flake_ref.getD (chars "."), chars "--json"] (chars "flake-show") ts o).stdout) <;>
      simp [hjp]
  · rfl

theorem handleFlakeCheck_resp {a : Arguments} {ts : List Char} {o : SubprocessOutcome}
    {c : CallReply} (h : handleFlakeCheck a ts o = .ok c) :
    ∃ args, args = [chars "nix", chars "flake", chars "check",
        a.flake_ref.getD (chars "."), chars "--show-trace"] ∧
    c = ⟨.jsonResp
      { success := (run_nix_command args (chars "flake-check") ts o).success,
        log_file := (run_nix_command args (chars "flake-check") ts o).log_file },
      [args], [(run_nix_command args (chars "flake-check") ts o).log]⟩ := by
  refine ⟨_, rfl, ?_⟩
  simp only [handleFlakeCheck, Except.ok.injEq] at h
  rw [← h]

theorem handleSearch_resp {a : Arguments} {q : List Char}
    {jp : List Char → Option PyJson} {ts : List Char} {o : SubprocessOutcome}
    {c : CallReply} (hq : a.query = some q) (h : handleSearch a jp ts o = .ok c) :
    ∃ args, args = [chars "nix", chars "search", a.flake_ref.getD (chars "nixpkgs"),
        q, chars "--json"] ∧
    c = ⟨.jsonResp
      { success := (run_nix_command args (chars "search") ts o).success,
        log_file := (run_nix_command args (chars "search") ts o).log_file,
        results :=
          if (run_nix_command args (chars "search") ts o).success = true then
            (match jp (run_nix_command args (chars "search") ts o).stdout with
             | some v => some (.parsed v)
             | none => some (.raw (pyStrip
                 (run_nix_command args (chars "search") ts o).stdout)))
          else none,
        count :=
          if (run_nix_command args (chars "search") ts o).success = true then
            (match jp (run_nix_command args (chars "search") ts o).stdout with
             | some v => pyLen v
             | none => none)
          else none },
      [args], [(run_nix_command args (chars "search") ts o).log]⟩ := by
  refine ⟨_, rfl, ?_⟩
  simp only [handleSearch, hq] at h
  split at h
  · rename_i hs
    cases hjp : jp ((run_nix_command [chars "nix", chars "search",
        a.flake_ref.getD (chars "nixpkgs"), q, chars "--json"]
        (chars "search") ts o).stdout) with
    | some v =>
      rw [hjp] at h
      simp only [] at h
      cases hlen : pyLen v with
      | some n =>
        rw [hlen] at h
        simp only [Except.ok.injEq] at h
        rw [← h]
        simp [hs, hjp, hlen]
      | none =>
        rw [hlen] at h
        simp at h
    | none =>
      rw [hjp] at h
      simp only [Except.ok.injEq] at h
      rw [← h]
      simp [hs, hjp]
  · rename_i hs
    simp only [Except.ok.injEq] at h
    rw [← h]
    simp [hs]

/-- Under success, a decoded scalar (no `len`) makes `nix_search` raise an
uncaught `TypeError` and produce no response. -/
theorem handleSearch_typeError {a : Arguments} {q : List Char} {v : PyJson}
    {jp : List Char → Option PyJson} {ts : List Char} {o : SubprocessOutcome}
    (hq : a.query = some q)
    (hs : (run_nix_command [chars "nix", chars "search",
        a.flake_ref.getD (chars "nixpkgs"), q, chars "--json"]
        (chars "search") ts o).success = true)
    (hjp : jp (run_nix_command [chars "nix", chars "search",
        a.flake_ref.getD (chars "nixpkgs"), q, chars "--json"]
        (chars "search") ts o).stdout = some v)
    (hlen : pyLen v = none) :
    handleSearch a jp ts o = .error .typeError := by
  simp [handleSearch, hq, hs, hjp, hlen]

/-- C6: every `run_nix_command` call writes exactly one log transcript at
`/tmp/nix-mcp-<logPrefix>-<timestamp>.log` (the timestamp argument models
`strftime("%Y%m%d-%H%M%S-%f")`, microsecond precision), returns that path
as its third component, begins the transcript with `Command: ` + argv
joined with spaces in every outcome (first line exactly, whenever no
argument contains a newline); and every five-tool call that completes runs
one subprocess, writes one transcript, and returns its path as `log_file`. -/
theorem C6_log_transcript :
    (∀ (args : List (List Char)) (pre ts : List Char) (o : SubprocessOutcome),
      (run_nix_command args pre ts o).log.path = logPath pre ts ∧
      (run_nix_command args pre ts o).log_file = (run_nix_command args pre ts o).log.path ∧
      List.isPrefixOf (chars "Command: " ++ joinSpace args ++ ['\n'])
        (run_nix_command args pre ts o).log.content = true ∧
      ((∀ l ∈ args, ∀ ch ∈ l, ch ≠ '\n') →
        firstLine (run_nix_command args pre ts o).log.content =
          chars "Command: " ++ joinSpace args)) ∧
    (∀ name, name ∈ toolNames → ∀ (a : Arguments) (jp : List Char → Option PyJson)
      (ts : List Char) (o : SubprocessOutcome) (c : CallReply),
      call_tool name a jp ts o = .ok c → ∃ pre, goodReply pre ts o c) := by
  constructor
  · intro args pre ts o
    obtain ⟨rest, hc⟩ := @run_content args pre ts o
    refine ⟨run_log_path, by cases o <;> rfl, ?_, ?_⟩
    · rw [hc, List.isPrefixOf_iff_prefix]
      exact ⟨rest, by simp⟩
    · intro h
      have h1 : ∀ a ∈ chars "Command: ", (a != '\n') = true := by decide
      have h2 : ∀ a ∈ joinSpace args, (a != '\n') = true := by
        intro a ha
        rcases mem_joinSpace args a ha with hsp | ⟨m, hm, ham⟩
        · subst hsp; decide
        · simpa using h m hm a ham
      rw [hc]
      unfold firstLine
      rw [List.takeWhile_append_of_pos h1, List.takeWhile_append_of_pos h2]
      simp [List.takeWhile_cons]
  · intro name hname a jp ts o c hcall
    simp only [toolNames, List.mem_cons, List.not_mem_nil, or_false] at hname
    rcases hname with h | h | h | h | h <;> subst h
    · exact ⟨_, handleBuild_good ((call_tool_build a jp ts o) ▸ hcall)⟩
    · exact ⟨_, handleEval_good ((call_tool_eval a jp ts o) ▸ hcall)⟩
    · exact ⟨_, handleFlakeShow_good ((call_tool_flake_show a jp ts o) ▸ hcall)⟩
    · exact ⟨_, handleFlakeCheck_good ((call_tool_flake_check a jp ts o) ▸ hcall)⟩
    · exact ⟨_, handleSearch_good ((call_tool_search a jp ts o) ▸ hcall)⟩

/-- C6, witness: a concrete timed-out `nix_flake_check` call and a concrete
newline-free argv instantiating the first-line property. -/
theorem C6_witness :
    firstLine (run_nix_command [chars "nix", chars "--version"] (chars "build")
        (chars "T") SubprocessOutcome.timedOut).log.content =
      chars "Command: " ++ joinSpace [chars "nix", chars "--version"] ∧
    ∃ pre, goodReply pre (chars "T") SubprocessOutcome.timedOut replyW6 := by
  constructor
  · exact (C6_log_transcript.1 [chars "nix", chars "--version"] (chars "build")
      (chars "T") SubprocessOutcome.timedOut).2.2.2 (by decide)
  · exact C6_log_transcript.2 (chars "nix_flake_check") (by decide) {}
      (fun _ => none) (chars "T") SubprocessOutcome.timedOut replyW6 rfl

/-! ### Claim C4 -/

/-- C4: every response produced by one of the five tools carries the two
base fields (`success`/`log_file` are mandatory structure fields, mirroring
the unconditional `result = {"success": ..., "log_file": ...}`), `log_file`
is the actual transcript path, and on failure none of the optional
tool-specific fields is present — they are added only under `if success`. -/
theorem C4_response_fields :
    ∀ name, name ∈ toolNames →
    ∀ (a : Arguments) (jp : List Char → Option PyJson) (ts : List Char)
      (o : SubprocessOutcome) (c : CallReply) (r : NixResponse),
      call_tool name a jp ts o = .ok c → c.text = .jsonResp r →
      (∃ pre, r.log_file = logPath pre ts) ∧
      (r.success = false →
        r.store_path = none ∧ r.result = none ∧ r.outputs = none ∧
        r.results = none ∧ r.count = none) := by
  intro name hname a jp ts o c r hcall ht
  simp only [toolNames, List.mem_cons, List.not_mem_nil, or_false] at hname
  rcases hname with h | h | h | h | h <;> subst h
  · rw [call_tool_build] at hcall
    cases hfr : a.flake_ref with
    | none => simp [handleBuild, hfr] at hcall
    | some fr =>
      obtain ⟨args, -, hcc⟩ := handleBuild_resp hfr hcall
      subst hcc
      simp only [ReplyText.jsonResp.injEq] at ht
      subst ht
      refine ⟨⟨chars "build", run_log_file⟩, fun hs => ?_⟩
      have hs' : (run_nix_command args (chars "build") ts o).success = false := hs
      exact ⟨by simp [hs'], rfl, rfl, rfl, rfl⟩
  · rw [call_tool_eval] at hcall
    cases hfr : a.flake_ref with
    | none => simp [handleEval, hfr] at hcall
    | some fr =>
      obtain ⟨args, -, hcc⟩ := handleEval_resp hfr hcall
      subst hcc
      simp only [ReplyText.jsonResp.injEq] at ht
      subst ht
      refine ⟨⟨chars "eval", run_log_file⟩, fun hs => ?_⟩
      have hs' : (run_nix_command args (chars "eval") ts o).success = false := hs
      exact ⟨rfl, by simp [hs'], rfl, rfl, rfl⟩
  · rw [call_tool_flake_show] at hcall
    obtain ⟨args, -, hcc⟩ := handleFlakeShow_resp hcall
    subst hcc
    simp only [ReplyText.jsonResp.injEq] at ht
    subst ht
    refine ⟨⟨chars "flake-show", run_log_file⟩, fun hs => ?_⟩
    have hs' : (run_nix_command args (chars "flake-show") ts o).success = false := hs
    exact ⟨rfl, rfl, by simp [hs'], rfl, rfl⟩
  · rw [call_tool_flake_check] at hcall
    obtain ⟨args, -, hcc⟩ := handleFlakeCheck_resp hcall
    subst hcc
    simp only [ReplyText.jsonResp.injEq] at ht
    subst ht
    exact ⟨⟨chars "flake-check", run_log_file⟩, fun _ => ⟨rfl, rfl, rfl, rfl, rfl⟩⟩
  · rw [call_tool_search] at hcall
    cases hq : a.query with
    | none => simp [handleSearch, hq] at hcall
    | some q =>
      obtain ⟨args, -, hcc⟩ := handleSearch_resp hq hcall
      subst hcc
      simp only [ReplyText.jsonResp.injEq] at ht
      subst ht
      refine ⟨⟨chars "search", run_log_file⟩, fun hs => ?_⟩
      have hs' : (run_nix_command args (chars "search") ts o).success = false := hs
      exact ⟨rfl, rfl, rfl, by simp [hs'], by simp [hs']⟩

/-- C4, witness: the spec's timeout example — `nix_eval` under a timeout
yields `success = false` with no optional field present. -/
theorem C4_witness :
    call_tool (chars "nix_eval") { flake_ref := some (chars ".") } (fun _ => none)
      (chars "T") SubprocessOutcome.timedOut = .ok cW4 ∧
    cW4.text = .jsonResp rW4 ∧
    (rW4.store_path = none ∧ rW4.result = none ∧ rW4.outputs = none ∧
      rW4.results = none ∧ rW4.count = none) :=
  ⟨rfl, rfl,
    (C4_response_fields (chars "nix_eval") (by decide)
      { flake_ref := some (chars ".") } (fun _ => none) (chars "T")
      SubprocessOutcome.timedOut cW4 rW4 rfl rfl).2 rfl⟩

/-! ### Claim C5 -/

/-- C5: `nix_eval` builds `["nix", "eval", flake_ref, "--show-trace"]` with
`--raw` appended exactly when `raw` is true and then `--json` exactly when
`json` is true, and on a successful completion the `result` field is the
captured stdout stripped of surrounding whitespace. -/
theorem C5_eval_command (a : Arguments) (fr : List Char)
    (jp : List Char → Option PyJson) (ts : List Char) (o : SubprocessOutcome)
    (c : CallReply) (hfr : a.flake_ref = some fr)
    (hcall : call_tool (chars "nix_eval") a jp ts o = .ok c) :
    c.commands = [([chars "nix", chars "eval", fr, chars "--show-trace"] ++
        (if a.raw.getD false then [chars "--raw"] else [])) ++
        (if a.json.getD false then [chars "--json"] else [])] ∧
    ∀ rc out err, o = .completed rc out err → rc = 0 →
      ∃ r, c.text = .jsonResp r ∧ r.result = some (pyStrip out) := by
  rw [call_tool_eval] at hcall
  obtain ⟨args, hargs, hcc⟩ := handleEval_resp hfr hcall
  subst hcc
  constructor
  · rw [hargs]
  · intro rc out err ho h0
    subst ho
    subst h0
    refine ⟨_, rfl, ?_⟩
    have hs : (run_nix_command args (chars "eval") ts
        (.completed 0 out err)).success = true := rfl
    rw [if_pos hs]
    rfl

/-- C5, witness: the spec's example — `raw = true`, stdout `"2.12\n"`, exit
0: the argv contains `--raw` and not `--json`, and `result = "2.12"`. -/
theorem C5_witness :
    call_tool (chars "nix_eval")
      { flake_ref := some (chars "nixpkgs#hello.version"), raw := some true }
      (fun _ => none) (chars "T") (.completed 0 (chars "2.12\n") []) = .ok cW5 ∧
    cW5.commands = [argvW5] ∧
    (chars "--raw") ∈ argvW5 ∧ ¬ (chars "--json") ∈ argvW5 := by
  refine ⟨rfl, ?_, by decide, by decide⟩
  have h := C5_eval_command
    { flake_ref := some (chars "nixpkgs#hello.version"), raw := some true }
    (chars "nixpkgs#hello.version") (fun _ => none) (chars "T")
    (.completed 0 (chars "2.12\n") []) cW5 rfl rfl
  exact h.1.trans (by rfl)

/-! ### Claim C8 -/

/-- C8: a tool name outside the five-name catalog produces the plain text
`Unknown tool: <name>` as a normal reply, runs no subprocess and writes no
log file. -/
theorem C8_unknown_tool (name : List Char) (a : Arguments)
    (jp : List Char → Option PyJson) (ts : List Char) (o : SubprocessOutcome)
    (h : ¬ name ∈ toolNames) :
    call_tool name a jp ts o =
      .ok ⟨.plain (chars "Unknown tool: " ++ name), [], []⟩ := by
  have h1 : ¬ name = chars "nix_build" := fun he => h (by rw [he]; decide)
  have h2 : ¬ name = chars "nix_eval" := fun he => h (by rw [he]; decide)
  have h3 : ¬ name = chars "nix_flake_show" := fun he => h (by rw [he]; decide)
  have h4 : ¬ name = chars "nix_flake_check" := fun he => h (by rw [he]; decide)
  have h5 : ¬ name = chars "nix_search" := fun he => h (by rw [he]; decide)
  unfold call_tool
  rw [if_neg h1, if_neg h2, if_neg h3, if_neg h4, if_neg h5]

/-- C8, witness: the spec's example name `nix_frobnicate`. -/
theorem C8_witness :
    call_tool (chars "nix_frobnicate") {} (fun _ => none) (chars "T")
      SubprocessOutcome.timedOut =
      .ok ⟨.plain (chars "Unknown tool: nix_frobnicate"), [], []⟩ :=
  (C8_unknown_tool (chars "nix_frobnicate") {} (fun _ => none) (chars "T")
    SubprocessOutcome.timedOut (by decide)).trans (by rfl)

/-! ### Claim C9 -/

/-- C9: missing required arguments (`flake_ref` for `nix_build`/`nix_eval`,
`query` for `nix_search`) raise an uncaught `KeyError` naming the key;
omitted optional arguments never raise and take their declared defaults
(`extra_args = []`, `raw = json = false`, `flake_ref = "."` for the two
flake tools, `flake_ref = "nixpkgs"` for `nix_search`). -/
theorem C9_required_args (jp : List Char → Option PyJson) (ts : List Char)
    (o : SubprocessOutcome) :
    (∀ a : Arguments, a.flake_ref = none →
      call_tool (chars "nix_build") a jp ts o = .error (.keyError (chars "flake_ref"))) ∧
    (∀ a : Arguments, a.flake_ref = none →
      call_tool (chars "nix_eval") a jp ts o = .error (.keyError (chars "flake_ref"))) ∧
    (∀ a : Arguments, a.query = none →
      call_tool (chars "nix_search") a jp ts o = .error (.keyError (chars "query"))) ∧
    (∀ fr r j q, call_tool (chars "nix_build") ⟨some fr, none, r, j, q⟩ jp ts o =
      call_tool (chars "nix_build") ⟨some fr, some [], r, j, q⟩ jp ts o) ∧
    (∀ fr e q, call_tool (chars "nix_eval") ⟨some fr, e, none, none, q⟩ jp ts o =
      call_tool (chars "nix_eval") ⟨some fr, e, some false, some false, q⟩ jp ts o) ∧
    (∀ e r j q, call_tool (chars "nix_flake_show") ⟨none, e, r, j, q⟩ jp ts o =
      call_tool (chars "nix_flake_show") ⟨some (chars "."), e, r, j, q⟩ jp ts o) ∧
    (∀ e r j q, call_tool (chars "nix_flake_check") ⟨none, e, r, j, q⟩ jp ts o =
      call_tool (chars "nix_flake_check") ⟨some (chars "."), e, r, j, q⟩ jp ts o) ∧
    (∀ e r j q, call_tool (chars "nix_search") ⟨none, e, r, j, some q⟩ jp ts o =
      call_tool (chars "nix_search") ⟨some (chars "nixpkgs"), e, r, j, some q⟩ jp ts o) := by
  refine ⟨fun a ha => ?_, fun a ha => ?_, fun a ha => ?_,
    fun fr r j q => rfl, fun fr e q => rfl, fun e r j q => rfl,
    fun e r j q => rfl, fun e r j q => rfl⟩
  · rw [call_tool_build]
    simp [handleBuild, ha]
  · rw [call_tool_eval]
    simp [handleEval, ha]
  · rw [call_tool_search]
    simp [handleSearch, ha]

/-- C9, witness: calling `nix_build` (resp. `nix_search`) with an empty
argument mapping raises `KeyError("flake_ref")` (resp. `KeyError("query")`). -/
theorem C9_witness :
    call_tool (chars "nix_build") {} (fun _ => none) (chars "T")
      SubprocessOutcome.timedOut = .error (.keyError (chars "flake_ref")) ∧
    call_tool (chars "nix_search") {} (fun _ => none) (chars "T")
      SubprocessOutcome.timedOut = .error (.keyError (chars "query")) :=
  ⟨(C9_required_args (fun _ => none) (chars "T") SubprocessOutcome.timedOut).1 {} rfl,
   (C9_required_args (fun _ => none) (chars "T") SubprocessOutcome.timedOut).2.2.1 {} rfl⟩

/-! ### Claim C3 -/

/-- C3, amended: in every `nix_search` response, `count` equals the Python
`len` of the decoded value whenever `results` holds a *parsed* JSON value
(array, object or string — a decoded scalar raises before any response
exists), and `count` is absent whenever `results` is the raw-text fallback
or absent.  (The original claim restricted this to parsed *arrays*; see the
counterexample with a parsed object.) -/
theorem C3_search_count (a : Arguments) (q : List Char)
    (jp : List Char → Option PyJson) (ts : List Char) (o : SubprocessOutcome)
    (r : NixResponse) (hq : a.query = some q)
    (hr : respOf (call_tool (chars "nix_search") a jp ts o) = some r) :
    (∀ v, r.results = some (.parsed v) → r.count = pyLen v) ∧
    (∀ n, r.count = some n → ∃ v, r.results = some (.parsed v) ∧ pyLen v = some n) := by
  rw [call_tool_search] at hr
  cases hc : handleSearch a jp ts o with
  | error e =>
    rw [hc] at hr
    cases hr
  | ok c =>
    rw [hc] at hr
    obtain ⟨args, -, hcc⟩ := handleSearch_resp hq hc
    subst hcc
    simp only [respOf, Option.some.injEq] at hr
    subst hr
    by_cases hs : (run_nix_command args (chars "search") ts o).success = true
    · cases hjp : jp ((run_nix_command args (chars "search") ts o).stdout) with
      | some v =>
        constructor
        · intro w hw
          simp only [hs, if_true] at hw ⊢
          simp [hjp] at hw ⊢
          rw [← hw]
        · intro n hn
          simp [hs, hjp] at hn
          exact ⟨v, by simp [hs, hjp], by rw [hn]⟩
      | none =>
        constructor
        · intro w hw
          simp [hs, hjp] at hw
        · intro n hn
          simp [hs, hjp] at hn
    · constructor
      · intro w hw
        simp [hs] at hw
      · intro n hn
        simp [hs] at hn

/-- C3, counterexample to the claim as stated: a successful `nix_search`
whose stdout decodes to the empty JSON *object* (not an array) still gets a
`count` field, equal to the object's length 0. -/
theorem C3_counterexample :
    respOf (call_tool (chars "nix_search") { query := some (chars "python") } jpC3
        (chars "T") (.completed 0 (chars "\x7b\x7d") [])) =
      some { success := true, log_file := logPath (chars "search") (chars "T"),
             results := some (.parsed (.obj [])), count := some 0 } ∧
    isArrJson (.obj []) = false :=
  ⟨rfl, rfl⟩

/-- C3, witness: a parsed one-element array gets `count = 1 = len(results)`. -/
theorem C3_witness :
    respOf (call_tool (chars "nix_search") { query := some (chars "python") }
        (fun _ => some (.arr [PyJson.null])) (chars "T")
        (.completed 0 (chars "[null]") [])) = some rW3 ∧
    rW3.count = pyLen (.arr [PyJson.null]) :=
  ⟨rfl, (C3_search_count { query := some (chars "python") } (chars "python")
      (fun _ => some (.arr [PyJson.null])) (chars "T")
      (.completed 0 (chars "[null]") []) rW3 rfl rfl).1 (.arr [PyJson.null]) rfl⟩

/-! ### Claim C7 -/

/-- C7: when the subprocess succeeds but stdout does not decode as JSON,
`nix_flake_show` (resp. `nix_search`) does not raise: a response is
produced and `outputs` (resp. `results`) is the raw-text fallback — the
trimmed stdout. -/
theorem C7_fallback (a : Arguments) (q : List Char)
    (jp : List Char → Option PyJson) (ts : List Char) (rc : Int)
    (out err : List Char) (hrc : rc = 0) (hjp : jp out = none) :
    (respOf (call_tool (chars "nix_flake_show") a jp ts (.completed rc out err))).map
        (fun r => r.outputs) = some (some (.raw (pyStrip out))) ∧
    (a.query = some q →
      (respOf (call_tool (chars "nix_search") a jp ts (.completed rc out err))).map
        (fun r => r.results) = some (some (.raw (pyStrip out)))) := by
  subst hrc
  constructor
  · cases hc : call_tool (chars "nix_flake_show") a jp ts (.completed 0 out err) with
    | error e =>
      rw [call_tool_flake_show] at hc
      simp [handleFlakeShow] at hc
    | ok c =>
      rw [call_tool_flake_show] at hc
      obtain ⟨args, -, hcc⟩ := handleFlakeShow_resp hc
      subst hcc
      have hs : (run_nix_command args (chars "flake-show") ts
          (.completed 0 out err)).success = true := rfl
      have hst : (run_nix_command args (chars "flake-show") ts
          (.completed 0 out err)).stdout = out := rfl
      simp [respOf, hs, hst, hjp]
  · intro hq
    cases hc : call_tool (chars "nix_search") a jp ts (.completed 0 out err) with
    | error e =>
      rw [call_tool_search] at hc
      have hs : (run_nix_command [chars "nix", chars "search",
          a.flake_ref.getD (chars "nixpkgs"), q, chars "--json"]
          (chars "search") ts (.completed 0 out err)).success = true := rfl
      have hst : (run_nix_command [chars "nix", chars "search",
          a.flake_ref.getD (chars "nixpkgs"), q, chars "--json"]
          (chars "search") ts (.completed 0 out err)).stdout = out := rfl
      simp [handleSearch, hq, hs, hst, hjp] at hc
    | ok c =>
      rw [call_tool_search] at hc
      obtain ⟨args, -, hcc⟩ := handleSearch_resp hq hc
      subst hcc
      have hs : (run_nix_command args (chars "search") ts
          (.completed 0 out err)).success = true := rfl
      have hst : (run_nix_command args (chars "search") ts
          (.completed 0 out err)).stdout = out := rfl
      simp [respOf, hs, hst, hjp]

/-- C7, witness: non-JSON stdout `"not json"` with exit 0 yields the
trimmed raw text in `outputs` / `results` for both tools. -/
theorem C7_witness :
    (respOf (call_tool (chars "nix_flake_show") {} (fun _ => none) (chars "T")
        (.completed 0 (chars "not json") []))).map (fun r => r.outputs) =
      some (some (.raw (pyStrip (chars "not json")))) ∧
    (respOf (call_tool (chars "nix_search") { query := some (chars "python") }
        (fun _ => none) (chars "T") (.completed 0 (chars "not json") []))).map
      (fun r => r.results) = some (some (.raw (pyStrip (chars "not json")))) :=
  ⟨(C7_fallback {} (chars "python") (fun _ => none) (chars "T") 0
      (chars "not json") [] rfl rfl).1,
   (C7_fallback { query := some (chars "python") } (chars "python") (fun _ => none)
      (chars "T") 0 (chars "not json") [] rfl rfl).2 rfl⟩

/-! ### Claim C10 -/

/-- C10: on a successful `nix_search` whose stdout decodes to a JSON value:
if the value has no `len` (scalar: number, boolean or null) the dispatcher
raises an uncaught `TypeError` and produces no response; if it has a length
(array, object, string) the response carries `results` = the parsed value
and `count` = its length (for an object, the number of keys). -/
theorem C10_search_len (a : Arguments) (q : List Char)
    (jp : List Char → Option PyJson) (ts : List Char) (rc : Int)
    (out err : List Char) (v : PyJson)
    (hq : a.query = some q) (hrc : rc = 0) (hjp : jp out = some v) :
    (pyLen v = none →
      call_tool (chars "nix_search") a jp ts (.completed rc out err) =
        .error .typeError) ∧
    (∀ n, pyLen v = some n →
      (respOf (call_tool (chars "nix_search") a jp ts (.completed rc out err))).map
        (fun r => (r.results, r.count)) = some (some (.parsed v), some n)) := by
  subst hrc
  constructor
  · intro hlen
    rw [call_tool_search]
    exact handleSearch_typeError hq rfl hjp hlen
  · intro n hlen
    cases hc : call_tool (chars "nix_search") a jp ts (.completed 0 out err) with
    | error e =>
      rw [call_tool_search] at hc
      have hs : (run_nix_command [chars "nix", chars "search",
          a.flake_ref.getD (chars "nixpkgs"), q, chars "--json"]
          (chars "search") ts (.completed 0 out err)).success = true := rfl
      have hst : (run_nix_command [chars "nix", chars "search",
          a.flake_ref.getD (chars "nixpkgs"), q, chars "--json"]
          (chars "search") ts (.completed 0 out err)).stdout = out := rfl
      simp [handleSearch, hq, hs, hst, hjp, hlen] at hc
    | ok c =>
      rw [call_tool_search] at hc
      obtain ⟨args, -, hcc⟩ := handleSearch_resp hq hc
      subst hcc
      have hs : (run_nix_command args (chars "search") ts
          (.completed 0 out err)).success = true := rfl
      have hst : (run_nix_command args (chars "search") ts
          (.completed 0 out err)).stdout = out := rfl
      simp [respOf, hs, hst, hjp, hlen]

/-- C10, witness: decoded `null` raises `TypeError`; a decoded one-key
object yields `results` = the object and `count = 1`. -/
theorem C10_witness :
    call_tool (chars "nix_search") { query := some (chars "x") }
      (fun _ => some PyJson.null) (chars "T") (.completed 0 (chars "null") []) =
      .error .typeError ∧
    (respOf (call_tool (chars "nix_search") { query := some (chars "x") }
        (fun _ => some (.obj [(chars "a", PyJson.null)])) (chars "T")
        (.completed 0 (chars "x") []))).map (fun r => (r.results, r.count)) =
      some (some (.parsed (.obj [(chars "a", PyJson.null)])), some 1) :=
  ⟨(C10_search_len { query := some (chars "x") } (chars "x")
      (fun _ => some PyJson.null) (chars "T") 0 (chars "null") [] PyJson.null
      rfl rfl rfl).1 rfl,
   (C10_search_len { query := some (chars "x") } (chars "x")
      (fun _ => some (.obj [(chars "a", PyJson.null)])) (chars "T") 0 (chars "x") []
      (.obj [(chars "a", PyJson.null)]) rfl rfl rfl).2 1 rfl⟩

end NixMCP
